import Mathlib

/-!
Verification of the draft/case/follow-up subsystem of the SNF patient
navigator case collection app. The definitions below are shallow embeddings
of the Python functions in src/db.py, src/openai_integration.py and the
Streamlit page handlers in src/pages. Database tables are modelled as Lean
lists of rows, timestamps as natural numbers supplied by the caller, and
uuid primary keys as deterministic fresh identifiers where a claim does not
depend on their value. Python str.lower and str.strip are modelled on the
ASCII fragment, which covers every owner name and generator reply the
claims quantify over.
-/

namespace SnfApp

/-! ### Character and string helpers (Python str semantics, ASCII fragment) -/

/-- Python whitespace characters recognised by str.strip and the regex
class backslash-s, restricted to ASCII: space, tab, newline, carriage
return, vertical tab, form feed. -/
def isPyWs (c : Char) : Bool :=
  c = ' ' || c = '\t' || c = '\n' || c = '\r' || c = Char.ofNat 11 || c = Char.ofNat 12

/-- Strip Python-style whitespace from both ends of a character list. -/
def pyStripChars (cs : List Char) : List Char :=
  ((cs.dropWhile isPyWs).reverse.dropWhile isPyWs).reverse

/-- Python str.strip on a string. -/
def pyStrip (s : String) : String :=
  ⟨pyStripChars s.data⟩

/-- ASCII lower-casing of a character, as Python str.lower acts on ASCII. -/
def asciiLowerChar (c : Char) : Char :=
  if 'A' ≤ c ∧ c ≤ 'Z' then Char.ofNat (c.toNat + 32) else c

/-- ASCII lower-casing of a string, modelling Python str.lower. -/
def asciiLowerStr (s : String) : String :=
  ⟨s.data.map asciiLowerChar⟩

/-- Python str.replace of every space character by an underscore, as in
generate_case_id in src/db.py. -/
def pyReplaceSpaceUnderscore (s : String) : String :=
  ⟨s.data.map (fun c => if c = ' ' then '_' else c)⟩

/-! ### Generic list helpers -/

/-- Insert into a list sorted by the boolean relation le (insertion step of
a stable insertion sort, modelling an SQL ORDER BY). -/
def insertBy {α : Type} (le : α → α → Bool) (x : α) : List α → List α
  | [] => [x]
  | y :: ys => if le x y then x :: y :: ys else y :: insertBy le x ys

/-- Stable insertion sort by the boolean relation le, modelling an SQL
ORDER BY clause. -/
def sortBy {α : Type} (le : α → α → Bool) : List α → List α
  | [] => []
  | x :: xs => insertBy le x (sortBy le xs)

/-- Remove the first element satisfying the predicate, modelling a delete
of the single row returned by a query dot-first call. -/
def eraseFirstP {α : Type} : List α → (α → Bool) → List α
  | [], _ => []
  | x :: xs, p => if p x then xs else x :: eraseFirstP xs p

theorem mem_insertBy {α : Type} (le : α → α → Bool) (x a : α) :
    ∀ l : List α, a ∈ insertBy le x l ↔ a = x ∨ a ∈ l := by
  intro l
  induction l with
  | nil => simp [insertBy]
  | cons y ys ih =>
    by_cases h : le x y
    · simp [insertBy, h]
    · simp [insertBy, h, ih]
      tauto

theorem mem_sortBy {α : Type} (le : α → α → Bool) (a : α) :
    ∀ l : List α, a ∈ sortBy le l ↔ a ∈ l := by
  intro l
  induction l with
  | nil => simp [sortBy]
  | cons y ys ih => simp [sortBy, mem_insertBy, ih]

/-! ### Case store (src/db.py) -/

/-- One row of the cases table in src/db.py, with the JSON answers column
decoded into an association list. -/
structure CaseRec where
  case_id : String
  created_at : Nat
  intake_version : String
  user_name : String
  age_at_snf_stay : Nat
  gender : String
  race : String
  state : String
  snf_name : Option String
  snf_days : Option Nat
  services_discussed : Option String
  services_accepted : Option String
  services_utilized_after_discharge : Option String
  answers : List (String × String)
deriving DecidableEq, Repr

/-- get_next_case_number in src/db.py: count of the cases whose user_name
matches case-insensitively, plus one. -/
def get_next_case_number (cases : List CaseRec) (user_name : String) : Nat :=
  (cases.filter (fun c => asciiLowerStr c.user_name == asciiLowerStr user_name)).length + 1

/-- generate_case_id in src/db.py: lower-case the user name, replace every
space by an underscore, and append the case number. -/
def generate_case_id (user_name : String) (case_number : Nat) : String :=
  pyReplaceSpaceUnderscore (asciiLowerStr user_name) ++ "_" ++ toString case_number

/-- create_case in src/db.py: generate the sequential case id and append
the new row; created_at is the insertion timestamp. Returns the new table
and the generated case id. -/
def create_case (cases : List CaseRec) (intake_version user_name : String)
    (age_at_snf_stay : Nat) (gender race state : String)
    (snf_name : Option String) (snf_days : Option Nat)
    (services_discussed services_accepted services_utilized_after_discharge : Option String)
    (answers : List (String × String)) (created_at : Nat) : List CaseRec × String :=
  let case_number := get_next_case_number cases user_name
  let case_id := generate_case_id user_name case_number
  (cases ++ [⟨case_id, created_at, intake_version, user_name, age_at_snf_stay,
    gender, race, state, snf_name, snf_days, services_discussed,
    services_accepted, services_utilized_after_discharge, answers⟩], case_id)

/-- get_cases_by_user_name in src/db.py: case-insensitive filter on the
owner, ordered by created_at ascending (oldest first). -/
def get_cases_by_user_name (cases : List CaseRec) (user_name : String) : List CaseRec :=
  sortBy (fun c1 c2 => decide (c1.created_at ≤ c2.created_at))
    (cases.filter (fun c => asciiLowerStr c.user_name == asciiLowerStr user_name))

/-- Normalisation of an owner as worded by the spec for claim C4: lower-case
and replace every whitespace character with an underscore. Stated for
comparison with generate_case_id, which replaces only spaces. -/
def specNormalizeOwner (s : String) : String :=
  ⟨(asciiLowerStr s).data.map (fun c => if isPyWs c then '_' else c)⟩

/-! ### Draft store (src/db.py) -/

/-- The mutable payload of a draft_cases row: every column except the key
columns user_name and intake_version. The JSON columns answers_json and
audio_json are decoded into association lists; save_draft_case serialises
the whole mapping, so an update replaces them wholesale. -/
structure DraftContent where
  age_at_snf_stay : Option Nat
  gender : Option String
  race : Option String
  state : Option String
  snf_name : Option String
  snf_days : Option Nat
  services_discussed : Option String
  services_accepted : Option String
  services_utilized_after_discharge : Option String
  answers : List (String × String)
  audio : List (String × Bool)
deriving DecidableEq, Repr

/-- One row of the draft_cases table: the owner string as written at
creation, the intake kind, and the mutable content. The uuid id and the
timestamps are not modelled. -/
structure DraftRow where
  user_name : String
  intake_version : String
  content : DraftContent
deriving DecidableEq, Repr

/-- The filter used by every draft query in src/db.py: case-insensitive
match on user_name and exact match on intake_version. -/
def draftKeyMatches (d : DraftRow) (user_name intake_version : String) : Bool :=
  (asciiLowerStr d.user_name == asciiLowerStr user_name) && (d.intake_version == intake_version)

/-- save_draft_case in src/db.py: if a row matching (owner, intake kind)
exists, overwrite all of its content columns in place (the stored
user_name keeps its original casing); otherwise append a new row. -/
def save_draft_case : List DraftRow → String → String → DraftContent → List DraftRow
  | [], user_name, intake_version, c => [⟨user_name, intake_version, c⟩]
  | d :: ds, user_name, intake_version, c =>
    if draftKeyMatches d user_name intake_version then
      { d with content := c } :: ds
    else
      d :: save_draft_case ds user_name intake_version c

/-- get_draft_case in src/db.py: first row matching the case-insensitive
owner and the intake kind, if any. -/
def get_draft_case (drafts : List DraftRow) (user_name intake_version : String) : Option DraftRow :=
  drafts.find? (fun d => draftKeyMatches d user_name intake_version)

/-- delete_draft_case in src/db.py: delete the first row matching the
case-insensitive owner and the intake kind. -/
def delete_draft_case (drafts : List DraftRow) (user_name intake_version : String) : List DraftRow :=
  eraseFirstP drafts (fun d => draftKeyMatches d user_name intake_version)

/-- Number of draft rows matching a given (owner, intake kind) key. -/
def countMatchingDrafts (drafts : List DraftRow) (user_name intake_version : String) : Nat :=
  (drafts.filter (fun d => draftKeyMatches d user_name intake_version)).length

/-! ### Follow-up question ledger (src/db.py) -/

/-- One row of the follow_up_questions table. The created_at and
answered_at timestamps are not modelled; answered is defined by
answer_text being non-null, as in the source. -/
structure FUQ where
  id : String
  case_id : String
  user_name : String
  sectionTag : String
  question_number : Nat
  question_text : String
  answer_text : Option String
deriving DecidableEq, Repr

/-- A parsed question as produced by parse_follow_up_response: the dict
with keys section, question_number, question_text. -/
structure QSpec where
  sectionTag : String
  question_number : Nat
  question_text : String
deriving DecidableEq, Repr

/-- Lexicographic strict order on character lists by code point, the
ordering an SQL engine applies to the single-letter section strings. -/
def charListLtB : List Char → List Char → Bool
  | [], [] => false
  | [], _ :: _ => true
  | _ :: _, [] => false
  | c1 :: cs1, c2 :: cs2 =>
    if c1.toNat < c2.toNat then true
    else if c1.toNat = c2.toNat then charListLtB cs1 cs2
    else false

/-- Strict lexicographic order on strings by code point. -/
def strLtB (s1 s2 : String) : Bool :=
  charListLtB s1.data s2.data

/-- Ledger ordering used by the order_by clauses in src/db.py: section
ascending, then question_number ascending. -/
def fuqLe (q1 q2 : FUQ) : Bool :=
  strLtB q1.sectionTag q2.sectionTag ||
    ((q1.sectionTag == q2.sectionTag) && decide (q1.question_number ≤ q2.question_number))

/-- The insertion loop of create_follow_up_questions: one row per parsed
question (the uuid id is modelled by a deterministic fresh id, which no
claim depends on). The flush of row i raises when failAt i holds; the
surrounding try block then rolls back, so the loop yields no rows. -/
def cfqLoop (case_id user_name : String) : List QSpec → Nat → (Nat → Bool) → Option (List FUQ)
  | [], _, _ => some []
  | q :: rest, i, failAt =>
    if failAt i then none
    else
      match cfqLoop case_id user_name rest (i + 1) failAt with
      | none => none
      | some rows =>
        some (⟨case_id ++ "_fuq_" ++ toString i, case_id, user_name,
          q.sectionTag, q.question_number, q.question_text, none⟩ :: rows)

/-- create_follow_up_questions in src/db.py: add every question in one
session and commit once at the end; on any insert failure the session is
rolled back, leaving the committed table unchanged. Returns the committed
table and whether the batch succeeded. -/
def create_follow_up_questions (db : List FUQ) (case_id : String)
    (questions : List QSpec) (user_name : String) (failAt : Nat → Bool) : List FUQ × Bool :=
  match cfqLoop case_id user_name questions 0 failAt with
  | none => (db, false)
  | some rows => (db ++ rows, true)

/-- get_follow_up_questions_for_case in src/db.py: rows of the case,
ordered by section then question number. -/
def get_follow_up_questions_for_case (db : List FUQ) (case_id : String) : List FUQ :=
  sortBy fuqLe (db.filter (fun q => q.case_id == case_id))

/-- get_unanswered_follow_up_questions in src/db.py: rows of the case with
null answer_text, ordered by section then question number. -/
def get_unanswered_follow_up_questions (db : List FUQ) (case_id : String) : List FUQ :=
  sortBy fuqLe (db.filter (fun q => q.case_id == case_id && q.answer_text == none))

/-- update_follow_up_answer in src/db.py: set answer_text on the row with
the given id (answered_at is a timestamp and is not modelled). -/
def update_follow_up_answer (db : List FUQ) (question_id answer_text : String) : List FUQ :=
  db.map (fun q => if q.id == question_id then { q with answer_text := some answer_text } else q)

/-- One entry of the list built by get_cases_with_pending_follow_ups. The
demographic display fields are omitted; the counts and the completeness
flag are kept. -/
structure PendingSummary where
  case_id : String
  intake_version : String
  created_at : Nat
  total_questions : Nat
  answered_questions : Nat
  unanswered_questions : Nat
  is_complete : Bool
deriving DecidableEq, Repr

/-- get_cases_with_pending_follow_ups in src/db.py: for each of the
owners cases (case-insensitive match, created_at descending) that has at
least one follow-up question, report the counts and is_complete, which the
source computes as unanswered == 0 with unanswered counting null
answer_text rows. -/
def get_cases_with_pending_follow_ups (cases : List CaseRec) (db : List FUQ)
    (user_name : String) : List PendingSummary :=
  (sortBy (fun c1 c2 => decide (c2.created_at ≤ c1.created_at))
    (cases.filter (fun c => asciiLowerStr c.user_name == asciiLowerStr user_name))).filterMap
    (fun c =>
      let total := (db.filter (fun q => q.case_id == c.case_id)).length
      if total > 0 then
        let unanswered := (db.filter (fun q => q.case_id == c.case_id && q.answer_text == none)).length
        some ⟨c.case_id, c.intake_version, c.created_at, total, total - unanswered,
          unanswered, unanswered == 0⟩
      else none)

/-! ### Follow-up response parsing (src/openai_integration.py) -/

/-- Case-insensitive literal match at the head of a character list,
returning the remainder on success; models a literal fragment of an
IGNORECASE regex. -/
def matchLitCI : List Char → List Char → Option (List Char)
  | [], cs => some cs
  | p :: ps, c :: cs =>
    if asciiLowerChar c = asciiLowerChar p then matchLitCI ps cs else none
  | _ :: _, [] => none

/-- Skip the regex fragment backslash-s star: drop leading Python
whitespace. -/
def skipWs (cs : List Char) : List Char :=
  cs.dropWhile isPyWs

/-- The section-A header regex of parse_follow_up_response, anchored at
the start of the line, IGNORECASE. -/
def matchSecA (cs : List Char) : Bool :=
  match matchLitCI "a)".data cs with
  | none => false
  | some r1 =>
    match matchLitCI "reasoning".data (skipWs r1) with
    | none => false
    | some r2 => (matchLitCI "trace".data (skipWs r2)).isSome

/-- The section-B header regex of parse_follow_up_response. -/
def matchSecB (cs : List Char) : Bool :=
  match matchLitCI "b)".data cs with
  | none => false
  | some r1 =>
    match matchLitCI "discharge".data (skipWs r1) with
    | none => false
    | some r2 =>
      match matchLitCI "timing".data (skipWs r2) with
      | none => false
      | some r3 => (matchLitCI "dynamics".data (skipWs r3)).isSome

/-- The section-C header regex of parse_follow_up_response. -/
def matchSecC (cs : List Char) : Bool :=
  match matchLitCI "c)".data cs with
  | none => false
  | some r1 =>
    match matchLitCI "snf".data (skipWs r1) with
    | none => false
    | some r2 =>
      match matchLitCI "patient".data (skipWs r2) with
      | none => false
      | some r3 => (matchLitCI "state".data (skipWs r3)).isSome

/-- The section-header dispatch of parse_follow_up_response, tried in the
insertion order A, B, C of the Python dict. -/
def sectionOf (line : String) : Option String :=
  if matchSecA line.data then some "A"
  else if matchSecB line.data then some "B"
  else if matchSecC line.data then some "C"
  else none

/-- Numeric value of a digit run, for the captured group of the numbered
question regex. -/
def natOfDigits (ds : List Char) : Nat :=
  ds.foldl (fun n c => 10 * n + (c.toNat - 48)) 0

/-- The numbered-question regex of parse_follow_up_response: digits, then
a dot or closing parenthesis, then optional whitespace, then at least one
character; the captured text is stripped. -/
def questionMatch (line : String) : Option (Nat × String) :=
  let cs := line.data
  let ds := cs.takeWhile (fun c => c.isDigit)
  match cs.drop ds.length with
  | [] => none
  | m :: rest =>
    if ds ≠ [] ∧ (m = '.' ∨ m = ')') ∧ rest ≠ [] then
      some (natOfDigits ds, ⟨pyStripChars rest⟩)
    else none

/-- The continuation-guard regex matching an upper-case section letter
followed by a closing parenthesis at the start of the line. -/
def contSectionMarker (line : String) : Bool :=
  match line.data with
  | c1 :: c2 :: _ => (c1 = 'A' || c1 = 'B' || c1 = 'C') && c2 = ')'
  | _ => false

/-- The continuation-guard regex matching digits followed by a dot or
closing parenthesis at the start of the line. -/
def contNumMarker (line : String) : Bool :=
  let cs := line.data
  let ds := cs.takeWhile (fun c => c.isDigit)
  match cs.drop ds.length with
  | m :: _ => decide (ds ≠ []) && (m = '.' || m = ')')
  | [] => false

/-- A parsed question record as accumulated by parse_follow_up_response. -/
structure PQuestion where
  sectionTag : String
  question_number : Nat
  question_text : String
deriving DecidableEq, Repr

/-- The loop state of parse_follow_up_response: the questions list and
current_section. -/
structure PState where
  questions : List PQuestion
  currentSection : Option String
deriving DecidableEq, Repr

/-- Append text to the question_text of the last accumulated question, as
the continuation branch of parse_follow_up_response does. -/
def appendToLast : List PQuestion → String → List PQuestion
  | [], _ => []
  | [q], t => [{ q with question_text := q.question_text ++ t }]
  | q :: q2 :: qs, t => q :: appendToLast (q2 :: qs) t

/-- One iteration of the parse_follow_up_response loop, acting on an
already stripped line: skip blanks, switch section on a header, record a
numbered question when a section is active, otherwise space-append the
line to the previous question when one exists, a section is active, and
the line is neither a section letter nor a number marker. -/
def stepStripped (s : PState) (line : String) : PState :=
  if line = "" then s
  else
    match sectionOf line with
    | some sec => { s with currentSection := some sec }
    | none =>
      match questionMatch line with
      | some (n, t) =>
        match s.currentSection with
        | some sec => { s with questions := s.questions ++ [⟨sec, n, t⟩] }
        | none => s
      | none =>
        if s.questions ≠ [] ∧ s.currentSection ≠ none ∧
            contSectionMarker line = false ∧ contNumMarker line = false then
          { s with questions := appendToLast s.questions (" " ++ line) }
        else s

/-- One iteration of the parse_follow_up_response loop on a raw line: the
loop strips the line first. -/
def step (s : PState) (raw : String) : PState :=
  stepStripped s (pyStrip raw)

/-- The parse_follow_up_response loop over a list of physical lines. -/
def parseLinesState (lines : List String) : PState :=
  lines.foldl step ⟨[], none⟩

/-- Split a character list on newline characters, as Python str.split
with a newline separator. -/
def splitNl : List Char → List (List Char)
  | [] => [[]]
  | c :: cs =>
    if c = '\n' then [] :: splitNl cs
    else
      match splitNl cs with
      | l :: ls => (c :: l) :: ls
      | [] => [[c]]

/-- parse_follow_up_response in src/openai_integration.py: strip the
reply, split it into physical lines, and run the parsing loop. -/
def parse_follow_up_response (response_text : String) : List PQuestion :=
  (parseLinesState ((splitNl (pyStripChars response_text.data)).map (fun cs => (⟨cs⟩ : String)))).questions

/-! ### Case Viewer numbering (src/pages/3_Case_Viewer.py) -/

/-- The case_options numbering loop of the Case Viewer page: enumerate
the owners oldest-first case list starting at 1, so the displayed number
of a case is its position in the whole list, across all form kinds. -/
def caseViewerNumbers (user_cases : List CaseRec) : List (String × Nat) :=
  user_cases.enum.map (fun p => (p.2.case_id, p.1 + 1))

/-! ### Per-kind numbering (src/pages/5_Follow_On_Questions.py) -/

/-- Kind classification used by get_case_numbers_by_type: the abbrev and
abbrev_gen intake versions each get their own counter, and everything
else counts as full intake. -/
def kindIdx (intake_version : String) : Nat :=
  if intake_version = "abbrev" then 0
  else if intake_version = "abbrev_gen" then 1
  else 2

/-- The display label paired with each kind by get_case_numbers_by_type. -/
def kindLabel (intake_version : String) : String :=
  if intake_version = "abbrev" then "Abbreviated Intake"
  else if intake_version = "abbrev_gen" then "Abbreviated General"
  else "Full Intake"

/-- The counting loop of get_case_numbers_by_type, carrying the three
per-kind counters; produces the case_numbers dict as an association
list keyed by case_id. -/
def gcnAux : List CaseRec → Nat → Nat → Nat → List (String × String × Nat)
  | [], _, _, _ => []
  | c :: cs, a, g, f =>
    if c.intake_version = "abbrev" then
      (c.case_id, ("Abbreviated Intake", a + 1)) :: gcnAux cs (a + 1) g f
    else if c.intake_version = "abbrev_gen" then
      (c.case_id, ("Abbreviated General", g + 1)) :: gcnAux cs a (g + 1) f
    else
      (c.case_id, ("Full Intake", f + 1)) :: gcnAux cs a g (f + 1)

/-- get_case_numbers_by_type in src/pages/5_Follow_On_Questions.py: fetch
the owners cases oldest first and number them with independent counters
per intake kind. -/
def get_case_numbers_by_type (cases : List CaseRec) (username : String) :
    List (String × String × Nat) :=
  gcnAux (get_cases_by_user_name cases username) 0 0 0

/-! ### Abbreviated intake submission (src/pages/1_Abbreviated_Intake.py) -/

/-- The form values read by the Save Case handler: the four required
demographic widgets, the optional fields, the narrative answers and the
per-question audio flags. -/
structure Submission where
  user : String
  age : Option Nat
  gender : String
  race : String
  state : String
  snf_name : String
  snf_days : Option Nat
  services_discussed : String
  services_accepted : String
  services_utilized : String
  answers : List (String × String)
  audio : List (String × Bool)
deriving DecidableEq, Repr

/-- The validation block of the Save Case handler: each missing required
demographic field appends its own message, in source order. -/
def validationErrors (sub : Submission) : List String :=
  (if sub.age = none then ["Age at SNF Stay is required"] else [])
    ++ (if sub.gender = "" then ["Gender is required"] else [])
    ++ (if sub.race = "" then ["Race is required"] else [])
    ++ (if sub.state = "" then ["SNF State is required"] else [])

/-- The stable question ids of the abbreviated intake form. -/
def ABBREV_QIDS : List String :=
  ["aq1", "aq2", "aq3", "aq4", "aq5", "aq6", "aq7", "aq8"]

/-- The persistent state touched by the Save Case handler: the cases
table, the draft_cases table and the follow_up_questions table. -/
structure AppDB where
  cases : List CaseRec
  drafts : List DraftRow
  fuqs : List FUQ
deriving DecidableEq, Repr

/-- Observable persistence events of the Save Case handler, in the order
the handler performs them. -/
inductive Ev where
  | insertCase (case_id : String)
  | saveAudio (case_id question_id : String)
  | deleteDraft (user_name intake_version : String)
  | generate (case_id : String)
  | insertQuestions (case_id : String) (count : Nat)
deriving DecidableEq, Repr

/-- Whether an event is the finalized-case insert. -/
def isInsertCaseEv : Ev → Bool
  | Ev.insertCase _ => true
  | _ => false

/-- Whether an event is the draft delete. -/
def isDeleteDraftEv : Ev → Bool
  | Ev.deleteDraft _ _ => true
  | _ => false

/-- Whether an event is the synchronous question-generation attempt. -/
def isGenerateEv : Ev → Bool
  | Ev.generate _ => true
  | _ => false

/-- Lift an empty string to the null the handler passes for optional
text columns. -/
def optOfStr (s : String) : Option String :=
  if s = "" then none else some s

/-- The Save Case click handler of the abbreviated intake page. On
validation failure it only reports the errors. On success it runs, in
source order: create_case, one audio save per flagged question, the
draft delete for (owner, abbrev), the synchronous generation attempt
(whose outcome genOk and parsed questions genQs are parameters, since
the external service is not modelled), and, when generation succeeded
with a non-empty list, the ledger batch insert. Returns the new
persistent state, the event trace, and the validation errors. -/
def abbrevSubmit (db : AppDB) (sub : Submission) (genOk : Bool)
    (genQs : List QSpec) (now : Nat) : AppDB × List Ev × List String :=
  match validationErrors sub, sub.age with
  | [], some a =>
    let created := create_case db.cases "abbrev" sub.user a sub.gender sub.race
      sub.state (optOfStr sub.snf_name) sub.snf_days
      (optOfStr sub.services_discussed) (optOfStr sub.services_accepted)
      (optOfStr sub.services_utilized) sub.answers now
    let cid := created.2
    let audioEvs := (ABBREV_QIDS.filter
      (fun q => ((sub.audio.lookup q).getD false))).map (fun q => Ev.saveAudio cid q)
    let drafts2 := delete_draft_case db.drafts sub.user "abbrev"
    let fuqs2 :=
      if genOk ∧ genQs ≠ [] then
        (create_follow_up_questions db.fuqs cid genQs sub.user (fun _ => false)).1
      else db.fuqs
    let events := Ev.insertCase cid :: audioEvs
      ++ [Ev.deleteDraft sub.user "abbrev", Ev.generate cid]
      ++ (if genOk ∧ genQs ≠ [] then [Ev.insertQuestions cid genQs.length] else [])
    (⟨created.1, drafts2, fuqs2⟩, events, [])
  | errs, _ => (db, [], errs)

/-! ### Follow-on answering page (src/pages/5_Follow_On_Questions.py) -/

/-- The session and store state of the follow-on answering page for the
selected case: the ledger rows as fetched, the draft table, the session
answer buffers, the owner, and the intake version of the selected case
(which keys the follow-on draft slot follow_on_<kind>). -/
structure FollowOnPage where
  selectedCase : String
  intakeVersion : String
  user : String
  questions : List FUQ
  drafts : List DraftRow
  sessionAnswers : List (String × String)
deriving DecidableEq, Repr

/-- The session answer buffer for a question id, defaulting to the empty
string as the page does. -/
def lookupAnswer (st : FollowOnPage) (question_id : String) : String :=
  (st.sessionAnswers.lookup question_id).getD ""

/-- The per-question Save button handler: strip the session answer and,
when non-empty, write it through update_follow_up_answer. The draft
table is not touched on this path. -/
def followOnSaveButton (st : FollowOnPage) (question_id : String) : FollowOnPage :=
  let a := pyStrip (lookupAnswer st question_id)
  if a ≠ "" then
    { st with questions := update_follow_up_answer st.questions question_id a }
  else st

/-- The per-question N/A button handler: write the literal answer N/A
through update_follow_up_answer. The draft table is not touched. -/
def followOnNAButton (st : FollowOnPage) (question_id : String) : FollowOnPage :=
  { st with questions := update_follow_up_answer st.questions question_id "N/A" }

/-- Whether the Save All Answers loop saves this question on this click:
the stripped session answer is non-empty and differs from the stored
answer_text of the fetched row. -/
def savedByClick (st : FollowOnPage) (q : FUQ) : Bool :=
  let a := pyStrip (lookupAnswer st q.id)
  if a = "" then false
  else if q.answer_text = some a then false
  else true

/-- The Save All Answers button handler: save every new or changed
non-empty answer, compute total_answered as the previously answered
count plus the newly saved count, and delete the follow-on draft slot
follow_on_<intake version> exactly when at least one answer was saved
and total_answered reaches the question count. -/
def followOnSaveAll (st : FollowOnPage) : FollowOnPage :=
  let savedCount := (st.questions.filter (savedByClick st)).length
  let questions2 := st.questions.map (fun q =>
    if savedByClick st q then
      { q with answer_text := some (pyStrip (lookupAnswer st q.id)) }
    else q)
  let totalAnswered := (st.questions.filter (fun q => q.answer_text ≠ none)).length + savedCount
  let drafts2 :=
    if savedCount > 0 ∧ totalAnswered ≥ st.questions.length then
      delete_draft_case st.drafts st.user ("follow_on_" ++ st.intakeVersion)
    else st.drafts
  { st with questions := questions2, drafts := drafts2 }

/-! ### Helper lemmas about the draft store -/

theorem draftKeyMatches_congr (d : DraftRow) (u1 u2 k : String)
    (h : asciiLowerStr u1 = asciiLowerStr u2) :
    draftKeyMatches d u1 k = draftKeyMatches d u2 k := by
  simp [draftKeyMatches, h]

theorem countMatching_save (ds : List DraftRow) (u o k : String) (c : DraftContent)
    (hu : asciiLowerStr u = asciiLowerStr o)
    (h : countMatchingDrafts ds o k ≤ 1) :
    countMatchingDrafts (save_draft_case ds u k c) o k = 1 := by
  induction ds with
  | nil =>
    simp [save_draft_case, countMatchingDrafts, draftKeyMatches, hu]
  | cons d ds ih =>
    by_cases hm : draftKeyMatches d u k
    · have hdo : draftKeyMatches d o k = true := by
        rw [← draftKeyMatches_congr d u o k hu]; exact hm
      have hkey : draftKeyMatches { d with content := c } o k = draftKeyMatches d o k := by
        simp [draftKeyMatches]
      have hcount : countMatchingDrafts (d :: ds) o k = countMatchingDrafts ds o k + 1 := by
        simp [countMatchingDrafts, List.filter, hdo]
      have hds : countMatchingDrafts ds o k = 0 := by omega
      simp [save_draft_case, hm, countMatchingDrafts, List.filter, hkey, hdo]
      simpa [countMatchingDrafts] using hds
    · have hdo : draftKeyMatches d o k = false := by
        rw [← draftKeyMatches_congr d u o k hu]
        exact Bool.eq_false_iff.mpr hm
      have hcount : countMatchingDrafts (d :: ds) o k = countMatchingDrafts ds o k := by
        simp [countMatchingDrafts, List.filter, hdo]
      have hds : countMatchingDrafts ds o k ≤ 1 := by omega
      simp [save_draft_case, hm, countMatchingDrafts, List.filter, hdo]
      simpa [countMatchingDrafts] using ih hds

theorem get_draft_save (ds : List DraftRow) (u k : String) (c : DraftContent) (o2 : String)
    (hu : asciiLowerStr o2 = asciiLowerStr u) :
    ∃ d, get_draft_case (save_draft_case ds u k c) o2 k = some d
      ∧ d.content = c ∧ d.intake_version = k ∧ asciiLowerStr d.user_name = asciiLowerStr u := by
  induction ds with
  | nil =>
    refine ⟨⟨u, k, c⟩, ?_, rfl, rfl, rfl⟩
    simp [get_draft_case, save_draft_case, List.find?, draftKeyMatches, hu]
  | cons d ds ih =>
    by_cases hm : draftKeyMatches d u k
    · have hparts := hm
      simp only [draftKeyMatches, Bool.and_eq_true, beq_iff_eq] at hparts
      have hkey : draftKeyMatches { d with content := c } o2 k = true := by
        simp [draftKeyMatches, hu, hparts.1, hparts.2]
      refine ⟨{ d with content := c }, ?_, rfl, hparts.2, hparts.1⟩
      simp [get_draft_case, save_draft_case, hm, List.find?, hkey]
    · have hdo : draftKeyMatches d o2 k = false := by
        rw [draftKeyMatches_congr d o2 u k hu]
        exact Bool.eq_false_iff.mpr hm
      obtain ⟨d2, hfind, hc, hk, hlow⟩ := ih
      refine ⟨d2, ?_, hc, hk, hlow⟩
      simpa [get_draft_case, save_draft_case, hm, List.find?, hdo] using hfind

theorem countMatching_foldl (saves : List (String × DraftContent)) (k o : String) :
    ∀ init : List DraftRow, countMatchingDrafts init o k ≤ 1 →
      (∀ p ∈ saves, asciiLowerStr p.1 = asciiLowerStr o) →
      countMatchingDrafts
        (saves.foldl (fun ds p => save_draft_case ds p.1 k p.2) init) o k ≤ 1 := by
  induction saves with
  | nil => intro init h0 _; simpa using h0
  | cons p ps ih =>
    intro init h0 hall
    simp only [List.foldl_cons]
    refine ih (save_draft_case init p.1 k p.2) ?_ ?_
    · have := countMatching_save init p.1 o k p.2 (hall p (by simp)) h0
      omega
    · intro q hq; exact hall q (by simp [hq])

/-! ### Helper lemmas about the question batch insert -/

theorem cfqLoop_none_iff (case_id user : String) (failAt : Nat → Bool) :
    ∀ (qs : List QSpec) (i : Nat),
      cfqLoop case_id user qs i failAt = none ↔ ∃ j, j < qs.length ∧ failAt (i + j) = true := by
  intro qs
  induction qs with
  | nil => intro i; simp [cfqLoop]
  | cons q rest ih =>
    intro i
    by_cases hf : failAt i = true
    · simp only [cfqLoop, hf, if_true]
      constructor
      · intro _; exact ⟨0, by simp, by simpa using hf⟩
      · intro _; trivial
    · simp only [cfqLoop, hf, if_false]
      constructor
      · intro h
        rcases hrec : cfqLoop case_id user rest (i + 1) failAt with _ | rows
        · obtain ⟨j, hj, hfj⟩ := (ih (i + 1)).mp hrec
          exact ⟨j + 1, by simpa using Nat.succ_lt_succ hj, by
            have : i + 1 + j = i + (j + 1) := by omega
            rwa [this] at hfj⟩
        · rw [hrec] at h; simp at h
      · intro h
        obtain ⟨j, hj, hfj⟩ := h
        cases j with
        | zero => simp at hfj; exact absurd hfj hf
        | succ j0 =>
          have hj0 : j0 < rest.length := by
            simp only [List.length_cons] at hj; omega
          have hrec : cfqLoop case_id user rest (i + 1) failAt = none := by
            refine (ih (i + 1)).mpr ⟨j0, hj0, ?_⟩
            have : i + 1 + j0 = i + (j0 + 1) := by omega
            rwa [this]
          simp [hrec]

/-! ### C4: case id generation -/

/-- C4 counterexample: generate_case_id replaces only the space character,
not every whitespace character. For the owner Jane-tab-Doe with no
existing cases, finalization produces the id jane-tab-doe_1, while the
claim, which normalizes every whitespace character to an underscore,
demands jane_doe_1. -/
theorem c4_counterexample :
    (create_case [] "abbrev" "Jane\tDoe" 70 "Female" "White" "Ohio"
        none none none none none [] 0).2 = "jane\tdoe_1"
    ∧ specNormalizeOwner "Jane\tDoe" ++ "_" ++ toString (1 : Nat) = "jane_doe_1"
    ∧ (create_case [] "abbrev" "Jane\tDoe" 70 "Female" "White" "Ohio"
        none none none none none [] 0).2
        ≠ specNormalizeOwner "Jane\tDoe" ++ "_" ++ toString (1 : Nat) := by
  refine ⟨rfl, rfl, ?_⟩
  decide

/-- C4 (amended): finalization generates
case_id = normalize(owner) ++ underscore ++ n, where normalize lowercases
the owner and replaces every space character (not every whitespace
character) with an underscore, and n is the current count of the owners
cases, matched case-insensitively across all form kinds, plus one; the
new row is appended with exactly that id. -/
theorem c4_case_id_generation (cases : List CaseRec) (intake_version user_name : String)
    (age : Nat) (gender race state : String) (snf_name : Option String)
    (snf_days : Option Nat) (sd sa su : Option String)
    (answers : List (String × String)) (now : Nat) :
    (create_case cases intake_version user_name age gender race state
        snf_name snf_days sd sa su answers now).2
      = pyReplaceSpaceUnderscore (asciiLowerStr user_name) ++ "_"
          ++ toString ((cases.filter
              (fun c => asciiLowerStr c.user_name == asciiLowerStr user_name)).length + 1)
    ∧ (create_case cases intake_version user_name age gender race state
        snf_name snf_days sd sa su answers now).1
      = cases ++ [⟨pyReplaceSpaceUnderscore (asciiLowerStr user_name) ++ "_"
          ++ toString ((cases.filter
              (fun c => asciiLowerStr c.user_name == asciiLowerStr user_name)).length + 1),
          now, intake_version, user_name, age, gender, race, state,
          snf_name, snf_days, sd, sa, su, answers⟩] :=
  ⟨rfl, rfl⟩

/-! ### C5: single-slot draft invariant -/

/-- C5: for any form kind and any nonempty sequence of save_draft_case
calls whose owner strings agree up to letter case, starting from a store
with at most one draft in that slot, exactly one matching draft row
exists afterward, and get_draft_case with any casing of the owner
returns a row whose whole content equals the last save (every field
replaced wholesale, including the answers mapping). -/
theorem c5_single_slot_draft (init : List DraftRow) (o k : String)
    (saves : List (String × DraftContent)) (lastSave : String × DraftContent)
    (h0 : countMatchingDrafts init o k ≤ 1)
    (hall : ∀ p ∈ saves ++ [lastSave], asciiLowerStr p.1 = asciiLowerStr o)
    (o2 : String) (ho2 : asciiLowerStr o2 = asciiLowerStr o) :
    countMatchingDrafts
        ((saves ++ [lastSave]).foldl (fun ds p => save_draft_case ds p.1 k p.2) init) o k = 1
    ∧ ∃ d, get_draft_case
          ((saves ++ [lastSave]).foldl (fun ds p => save_draft_case ds p.1 k p.2) init) o2 k
        = some d ∧ d.content = lastSave.2 ∧ d.intake_version = k := by
  have hfold : (saves ++ [lastSave]).foldl (fun ds p => save_draft_case ds p.1 k p.2) init
      = save_draft_case
          (saves.foldl (fun ds p => save_draft_case ds p.1 k p.2) init) lastSave.1 k lastSave.2 := by
    rw [List.foldl_append]; rfl
  have hmid : countMatchingDrafts
      (saves.foldl (fun ds p => save_draft_case ds p.1 k p.2) init) o k ≤ 1 :=
    countMatching_foldl saves k o init h0 (fun p hp => hall p (by simp [hp]))
  have hlastlow : asciiLowerStr lastSave.1 = asciiLowerStr o := hall lastSave (by simp)
  constructor
  · rw [hfold]
    exact countMatching_save _ lastSave.1 o k lastSave.2 hlastlow hmid
  · rw [hfold]
    obtain ⟨d, hfind, hc, hk, _⟩ := get_draft_save
      (saves.foldl (fun ds p => save_draft_case ds p.1 k p.2) init)
      lastSave.1 k lastSave.2 o2 (ho2.trans hlastlow.symm)
    exact ⟨d, hfind, hc, hk⟩

/-- Sample draft content used by concrete draft-store scenarios. -/
def sampleContent1 : DraftContent :=
  ⟨some 70, some "Female", none, some "Ohio", none, none, none, none, none,
    [("aq1", "First version")], [("aq1", false)]⟩

/-- Second sample draft content, replacing every field of the first. -/
def sampleContent2 : DraftContent :=
  ⟨some 71, some "Female", some "White", some "Ohio", some "Maple SNF", some 30,
    none, none, none, [("aq2", "Second version")], [("aq2", true)]⟩

/-- C5 witness: saving under Jane Doe and then JANE DOE leaves exactly one
draft row, and reading back as jane doe returns the second content. -/
theorem c5_witness :
    countMatchingDrafts
        (([("Jane Doe", sampleContent1)] ++ [("JANE DOE", sampleContent2)]).foldl
          (fun ds p => save_draft_case ds p.1 "abbrev" p.2) []) "Jane Doe" "abbrev" = 1
    ∧ ∃ d, get_draft_case
          (([("Jane Doe", sampleContent1)] ++ [("JANE DOE", sampleContent2)]).foldl
            (fun ds p => save_draft_case ds p.1 "abbrev" p.2) []) "jane doe" "abbrev"
        = some d ∧ d.content = ("JANE DOE", sampleContent2).2 ∧ d.intake_version = "abbrev" :=
  c5_single_slot_draft [] "Jane Doe" "abbrev" [("Jane Doe", sampleContent1)]
    ("JANE DOE", sampleContent2) (by decide) (by decide) "jane doe" (by decide)

/-! ### C6: all-or-nothing ledger batch creation -/

/-- C6: create_follow_up_questions is all-or-nothing. If any insert in the
batch fails, the committed table is unchanged and listing the questions of
any case gives the same sequence as before; if no insert fails, the batch
succeeds; and whenever the call reports failure the table is unchanged. -/
theorem c6_batch_all_or_nothing (db : List FUQ) (case_id user : String)
    (qs : List QSpec) (failAt : Nat → Bool) :
    ((∃ j, j < qs.length ∧ failAt j = true) →
      (create_follow_up_questions db case_id qs user failAt).1 = db
      ∧ (create_follow_up_questions db case_id qs user failAt).2 = false
      ∧ ∀ cid, get_follow_up_questions_for_case
            (create_follow_up_questions db case_id qs user failAt).1 cid
          = get_follow_up_questions_for_case db cid)
    ∧ ((∀ j, j < qs.length → failAt j = false) →
      (create_follow_up_questions db case_id qs user failAt).2 = true)
    ∧ ((create_follow_up_questions db case_id qs user failAt).2 = false →
      (create_follow_up_questions db case_id qs user failAt).1 = db) := by
  refine ⟨?_, ?_, ?_⟩
  · intro hex
    have hnone : cfqLoop case_id user qs 0 failAt = none := by
      refine (cfqLoop_none_iff case_id user failAt qs 0).mpr ?_
      obtain ⟨j, hj, hfj⟩ := hex
      exact ⟨j, hj, by simpa using hfj⟩
    refine ⟨?_, ?_, ?_⟩ <;> simp [create_follow_up_questions, hnone]
  · intro hall
    rcases hrec : cfqLoop case_id user qs 0 failAt with _ | rows
    · obtain ⟨j, hj, hfj⟩ := (cfqLoop_none_iff case_id user failAt qs 0).mp hrec
      have := hall j hj
      simp at hfj
      rw [this] at hfj
      exact absurd hfj (by simp)
    · simp [create_follow_up_questions, hrec]
  · intro hfail
    rcases hrec : cfqLoop case_id user qs 0 failAt with _ | rows
    · simp [create_follow_up_questions, hrec]
    · rw [create_follow_up_questions, hrec] at hfail
      simp at hfail

/-- Ten well-formed questions used by the C6 witness scenario. -/
def tenQuestions : List QSpec :=
  [⟨"A", 1, "q one"⟩, ⟨"A", 2, "q two"⟩, ⟨"A", 3, "q three"⟩, ⟨"A", 4, "q four"⟩,
    ⟨"B", 1, "q five"⟩, ⟨"B", 2, "q six"⟩, ⟨"B", 3, "q seven"⟩,
    ⟨"C", 1, "q eight"⟩, ⟨"C", 2, "q nine"⟩, ⟨"C", 3, "q ten"⟩]

/-- C6 witness: forcing the seventh insert (index six) of a ten-question
batch to fail leaves the table unchanged, so listing the case returns the
empty sequence, with no partial six rows. -/
theorem c6_witness :
    (create_follow_up_questions [] "nav_1" tenQuestions "Nav" (fun j => j == 6)).1 = []
    ∧ get_follow_up_questions_for_case
        (create_follow_up_questions [] "nav_1" tenQuestions "Nav" (fun j => j == 6)).1 "nav_1"
      = [] := by
  have h := (c6_batch_all_or_nothing [] "nav_1" "Nav" tenQuestions (fun j => j == 6)).1
    ⟨6, by decide, by decide⟩
  refine ⟨h.1, ?_⟩
  rw [h.1]
  decide

/-! ### C7: completeness flag of the pending summary -/

/-- C7: every entry reported by get_cases_with_pending_follow_ups (entries
exist exactly for cases with at least one ledger question) has
is_complete = true if and only if every question listed for that case has
non-null answer_text; the literal string N/A is a non-null answer and so
counts as answered. -/
theorem c7_pending_summary_complete (cases : List CaseRec) (db : List FUQ)
    (user_name : String) (s : PendingSummary)
    (hs : s ∈ get_cases_with_pending_follow_ups cases db user_name) :
    s.is_complete = true
      ↔ ∀ q ∈ get_follow_up_questions_for_case db s.case_id, q.answer_text ≠ none := by
  rw [get_cases_with_pending_follow_ups, List.mem_filterMap] at hs
  obtain ⟨c, _, heq⟩ := hs
  dsimp only at heq
  by_cases ht : (db.filter (fun q => q.case_id == c.case_id)).length > 0
  · rw [if_pos ht] at heq
    have hX := (Option.some_inj.mp heq).symm
    subst hX
    dsimp only
    constructor
    · intro h q hq
      have hlen : (db.filter
          (fun q => q.case_id == c.case_id && q.answer_text == none)).length = 0 := by
        simpa using h
      have hnil := List.length_eq_zero.mp hlen
      have hq2 : q ∈ db.filter (fun q => q.case_id == c.case_id) := by
        rw [get_follow_up_questions_for_case, mem_sortBy] at hq
        exact hq
      rw [List.mem_filter] at hq2
      intro hnone
      have hmem : q ∈ db.filter (fun q => q.case_id == c.case_id && q.answer_text == none) := by
        rw [List.mem_filter]
        refine ⟨hq2.1, ?_⟩
        simp [hq2.2, hnone]
      rw [hnil] at hmem
      simp at hmem
    · intro h
      have hnil : db.filter (fun q => q.case_id == c.case_id && q.answer_text == none) = [] := by
        rw [List.filter_eq_nil_iff]
        intro q hq hmatch
        simp only [Bool.and_eq_true, beq_iff_eq] at hmatch
        have hqin : q ∈ get_follow_up_questions_for_case db c.case_id := by
          rw [get_follow_up_questions_for_case, mem_sortBy, List.mem_filter]
          exact ⟨hq, by simp [hmatch.1]⟩
        exact h q hqin hmatch.2
      rw [hnil]
      rfl
  · rw [if_neg ht] at heq
    exact absurd heq (by simp)

/-- Sample case row used by concrete pending-summary scenarios. -/
def sampleCase1 : CaseRec :=
  ⟨"nav_1", 5, "abbrev", "Nav", 70, "Female", "White", "Ohio",
    none, some 30, none, none, none, [("aq1", "Summary text")]⟩

/-- Concrete ledger with one question answered N/A and one answered with
text, used by the C7 witness. -/
def sampleLedger : List FUQ :=
  [⟨"nav_1_fuq_0", "nav_1", "Nav", "A", 1, "Why?", some "N/A"⟩,
    ⟨"nav_1_fuq_1", "nav_1", "Nav", "B", 1, "When?", some "In March"⟩]

/-- C7 witness: for a case whose two questions are answered, one of them
with the literal N/A, the reported summary entry has is_complete = true. -/
theorem c7_witness :
    (⟨"nav_1", "abbrev", 5, 2, 2, 0, true⟩ : PendingSummary).is_complete = true :=
  (c7_pending_summary_complete [sampleCase1] sampleLedger "nav"
    ⟨"nav_1", "abbrev", 5, 2, 2, 0, true⟩ (by decide)).mpr (by decide)

/-! ### C1: display case numbering -/

/-- Select the counter matching a kind index: 0 is abbreviated, 1 is
abbreviated general, anything else is full intake. -/
def ctrOf (a g f : Nat) (k : Nat) : Nat :=
  if k = 0 then a else if k = 1 then g else f

theorem gcnAux_lookup (cs : List CaseRec) :
    ∀ (a g f i : Nat) (hi : i < cs.length),
      (cs.map (fun c => c.case_id)).Nodup →
      List.lookup (cs.get ⟨i, hi⟩).case_id (gcnAux cs a g f)
        = some (kindLabel (cs.get ⟨i, hi⟩).intake_version,
            ctrOf a g f (kindIdx (cs.get ⟨i, hi⟩).intake_version)
              + (cs.take (i + 1)).countP
                  (fun d => kindIdx d.intake_version
                    == kindIdx (cs.get ⟨i, hi⟩).intake_version)) := by
  induction cs with
  | nil => intro a g f i hi; simp at hi
  | cons c cs ih =>
    intro a g f i hi hnd
    rw [List.map_cons, List.nodup_cons] at hnd
    obtain ⟨hnotin, hndtail⟩ := hnd
    cases i with
    | zero =>
      by_cases hv1 : c.intake_version = "abbrev"
      · simp [gcnAux, hv1, List.lookup, kindLabel, kindIdx, ctrOf, List.countP_cons]
      · by_cases hv2 : c.intake_version = "abbrev_gen"
        · simp [gcnAux, hv1, hv2, List.lookup, kindLabel, kindIdx, ctrOf, List.countP_cons]
        · simp [gcnAux, hv1, hv2, List.lookup, kindLabel, kindIdx, ctrOf, List.countP_cons]
    | succ j =>
      have hj : j < cs.length := by simpa using Nat.lt_of_succ_lt_succ hi
      have htmem : (cs.get ⟨j, hj⟩).case_id ∈ cs.map (fun c => c.case_id) :=
        List.mem_map_of_mem _ (List.get_mem cs j hj)
      have hne : ((cs.get ⟨j, hj⟩).case_id == c.case_id) = false := by
        rw [beq_eq_false_iff_ne]
        intro hcontra
        exact hnotin (hcontra ▸ htmem)
      have hget : (c :: cs).get ⟨j + 1, hi⟩ = cs.get ⟨j, hj⟩ := rfl
      rw [hget]
      have htake : (c :: cs).take (j + 1 + 1) = c :: cs.take (j + 1) := rfl
      have hkle : kindIdx (cs.get ⟨j, hj⟩).intake_version ≤ 2 := by
        simp only [kindIdx]
        split_ifs <;> omega
      by_cases hv1 : c.intake_version = "abbrev"
      · have hkc : kindIdx c.intake_version = 0 := by simp [kindIdx, hv1]
        have hgcn : gcnAux (c :: cs) a g f
            = (c.case_id, ("Abbreviated Intake", a + 1)) :: gcnAux cs (a + 1) g f := by
          simp [gcnAux, hv1]
        rw [hgcn, List.lookup, hne, ih (a + 1) g f j hj hndtail, htake,
          List.countP_cons, hkc]
        simp only [Option.some.injEq, Prod.mk.injEq, ctrOf, beq_iff_eq]
        refine ⟨trivial, ?_⟩
        split_ifs <;> omega
      · by_cases hv2 : c.intake_version = "abbrev_gen"
        · have hkc : kindIdx c.intake_version = 1 := by simp [kindIdx, hv1, hv2]
          have hgcn : gcnAux (c :: cs) a g f
              = (c.case_id, ("Abbreviated General", g + 1)) :: gcnAux cs a (g + 1) f := by
            simp [gcnAux, hv1, hv2]
          rw [hgcn, List.lookup, hne, ih a (g + 1) f j hj hndtail, htake,
            List.countP_cons, hkc]
          simp only [Option.some.injEq, Prod.mk.injEq, ctrOf, beq_iff_eq]
          refine ⟨trivial, ?_⟩
          split_ifs <;> omega
        · have hkc : kindIdx c.intake_version = 2 := by simp [kindIdx, hv1, hv2]
          have hgcn : gcnAux (c :: cs) a g f
              = (c.case_id, ("Full Intake", f + 1)) :: gcnAux cs a g (f + 1) := by
            simp [gcnAux, hv1, hv2]
          rw [hgcn, List.lookup, hne, ih a g (f + 1) j hj hndtail, htake,
            List.countP_cons, hkc]
          simp only [Option.some.injEq, Prod.mk.injEq, ctrOf, beq_iff_eq]
          refine ⟨trivial, ?_⟩
          split_ifs <;> omega

/-- C1 (amended): per-form-kind numbering holds for the Follow-On
Questions page. For any owner, get_case_numbers_by_type assigns to each
case in the owners oldest-first list the count of cases of its own
intake kind up to and including itself, together with the kind label, so
the counters of the abbreviated, abbreviated-general and full kinds are
independent. The Case Viewer page, by contrast, numbers the same list by
global position across all form kinds (see the counterexample). -/
theorem c1_per_kind_numbering (allCases : List CaseRec) (username : String)
    (i : Nat) (hi : i < (get_cases_by_user_name allCases username).length)
    (hnd : ((get_cases_by_user_name allCases username).map (fun c => c.case_id)).Nodup) :
    List.lookup ((get_cases_by_user_name allCases username).get ⟨i, hi⟩).case_id
        (get_case_numbers_by_type allCases username)
      = some (kindLabel ((get_cases_by_user_name allCases username).get ⟨i, hi⟩).intake_version,
          ((get_cases_by_user_name allCases username).take (i + 1)).countP
            (fun d => kindIdx d.intake_version
              == kindIdx ((get_cases_by_user_name allCases username).get ⟨i, hi⟩).intake_version)) := by
  have h := gcnAux_lookup (get_cases_by_user_name allCases username) 0 0 0 i hi hnd
  simpa [get_case_numbers_by_type, ctrOf] using h

/-- First case of the C1 scenario: an abbreviated intake finalized
first. -/
def viewerCase1 : CaseRec :=
  ⟨"hafsa_ahmed_1", 1, "abbrev", "Hafsa Ahmed", 70, "Female", "White", "Ohio",
    none, none, none, none, none, []⟩

/-- Second case of the C1 scenario: a full intake finalized second. -/
def viewerCase2 : CaseRec :=
  ⟨"hafsa_ahmed_2", 2, "full", "Hafsa Ahmed", 60, "Male", "Asian", "Texas",
    none, none, none, none, none, []⟩

/-- C1 counterexample: after finalizing one abbreviated and then one full
case, the Case Viewer numbering loop displays Case 1 and Case 2 (position
in the whole oldest-first list), whereas the position of the full case
within its own form-kind subsequence, as computed by
get_case_numbers_by_type, is 1. The claim that every displayed number is
the per-kind position therefore fails on the Case Viewer page. -/
theorem c1_counterexample :
    caseViewerNumbers [viewerCase1, viewerCase2]
      = [("hafsa_ahmed_1", 1), ("hafsa_ahmed_2", 2)]
    ∧ List.lookup "hafsa_ahmed_2"
        (get_case_numbers_by_type [viewerCase1, viewerCase2] "Hafsa Ahmed")
      = some ("Full Intake", 1)
    ∧ (2 : Nat) ≠ 1 := by
  refine ⟨rfl, by decide, by decide⟩

/-- C1 witness: instantiating the per-kind numbering theorem on the
two-case scenario gives the full case the per-kind number 1. -/
theorem c1_witness :
    List.lookup "hafsa_ahmed_2"
        (get_case_numbers_by_type [viewerCase1, viewerCase2] "Hafsa Ahmed")
      = some ("Full Intake", 1) := by
  have h := c1_per_kind_numbering [viewerCase1, viewerCase2] "Hafsa Ahmed" 1
    (by decide) (by decide)
  exact h.trans (by decide)

/-! ### C2: order of operations on successful submission -/

/-- Empty draft content, used when only the presence of a draft row
matters. -/
def emptyDraftContent : DraftContent :=
  ⟨none, none, none, none, none, none, none, none, none, [], []⟩

/-- A valid abbreviated submission used by the concrete C2 and C9
scenarios. -/
def subOk : Submission :=
  ⟨"Nav", some 70, "Female", "White", "Ohio", "", none, "", "", "",
    [("aq1", "Summary")], []⟩

/-- Persistent state holding one abbreviated draft for the submitting
owner and nothing else. -/
def dbWithDraft : AppDB :=
  ⟨[], [⟨"Nav", "abbrev", emptyDraftContent⟩], []⟩

/-- One generated question, standing for a successful generation. -/
def oneGenQ : List QSpec :=
  [⟨"A", 1, "Why?"⟩]

/-- C2 counterexample: on a concrete successful submission the event
trace places the Case insert at index 0 and the draft delete at index 1,
so the draft delete does not precede the Case insert as the claim
states. -/
theorem c2_counterexample :
    List.findIdx isInsertCaseEv (abbrevSubmit dbWithDraft subOk true oneGenQ 0).2.1 = 0
    ∧ List.findIdx isDeleteDraftEv (abbrevSubmit dbWithDraft subOk true oneGenQ 0).2.1 = 1
    ∧ ¬ (List.findIdx isDeleteDraftEv (abbrevSubmit dbWithDraft subOk true oneGenQ 0).2.1
          < List.findIdx isInsertCaseEv (abbrevSubmit dbWithDraft subOk true oneGenQ 0).2.1) := by
  decide

/-- C2 (amended): on every submission passing validation, the handler
first writes the finalized Case, then saves the audio responses, then
deletes the draft for (owner, abbrev), then attempts question generation
synchronously; in particular the Case insert precedes the draft delete,
which precedes the generation attempt. -/
theorem c2_submit_order (db : AppDB) (sub : Submission) (genOk : Bool)
    (genQs : List QSpec) (now : Nat) (h : validationErrors sub = []) :
    ∃ mid tail : List Ev,
      (abbrevSubmit db sub genOk genQs now).2.1
        = Ev.insertCase (generate_case_id sub.user (get_next_case_number db.cases sub.user))
            :: mid ++ Ev.deleteDraft sub.user "abbrev"
            :: Ev.generate (generate_case_id sub.user (get_next_case_number db.cases sub.user))
            :: tail
      ∧ ∀ e ∈ mid, ∃ qid,
          e = Ev.saveAudio
            (generate_case_id sub.user (get_next_case_number db.cases sub.user)) qid := by
  obtain ⟨a, ha⟩ : ∃ a, sub.age = some a := by
    cases hage : sub.age with
    | none =>
      rw [validationErrors, hage] at h
      simp at h
    | some a => exact ⟨a, rfl⟩
  refine ⟨(ABBREV_QIDS.filter (fun q => ((sub.audio.lookup q).getD false))).map
      (fun q => Ev.saveAudio
        (generate_case_id sub.user (get_next_case_number db.cases sub.user)) q),
    (if genOk ∧ genQs ≠ [] then
      [Ev.insertQuestions
        (generate_case_id sub.user (get_next_case_number db.cases sub.user)) genQs.length]
    else []), ?_, ?_⟩
  · unfold abbrevSubmit
    rw [h, ha]
    dsimp only
    have hcid : (create_case db.cases "abbrev" sub.user a sub.gender sub.race
        sub.state (optOfStr sub.snf_name) sub.snf_days
        (optOfStr sub.services_discussed) (optOfStr sub.services_accepted)
        (optOfStr sub.services_utilized) sub.answers now).2
        = generate_case_id sub.user (get_next_case_number db.cases sub.user) := rfl
    simp only [hcid, List.append_assoc]
    rfl
  · intro e he
    rw [List.mem_map] at he
    obtain ⟨q, _, hq⟩ := he
    exact ⟨q, hq.symm⟩

/-- C2 witness: the amended ordering theorem instantiated on the concrete
successful submission. -/
theorem c2_witness :
    ∃ mid tail : List Ev,
      (abbrevSubmit dbWithDraft subOk true oneGenQ 0).2.1
        = Ev.insertCase (generate_case_id subOk.user
              (get_next_case_number dbWithDraft.cases subOk.user))
            :: mid ++ Ev.deleteDraft subOk.user "abbrev"
            :: Ev.generate (generate_case_id subOk.user
              (get_next_case_number dbWithDraft.cases subOk.user))
            :: tail
      ∧ ∀ e ∈ mid, ∃ qid,
          e = Ev.saveAudio (generate_case_id subOk.user
            (get_next_case_number dbWithDraft.cases subOk.user)) qid :=
  c2_submit_order dbWithDraft subOk true oneGenQ 0 rfl

/-! ### C9: validation completeness and atomicity -/

/-- C9: the Save Case validation reports each of the four required
demographic fields exactly when it is missing or empty, so every missing
field of any subset is reported at once; and whenever any validation
error is reported, the persistent state is returned unchanged (no Case
written, no draft deleted or modified) and no persistence event is
emitted. -/
theorem c9_validation (db : AppDB) (sub : Submission) (genOk : Bool)
    (genQs : List QSpec) (now : Nat) :
    ((sub.age = none ↔ "Age at SNF Stay is required" ∈ validationErrors sub)
      ∧ (sub.gender = "" ↔ "Gender is required" ∈ validationErrors sub)
      ∧ (sub.race = "" ↔ "Race is required" ∈ validationErrors sub)
      ∧ (sub.state = "" ↔ "SNF State is required" ∈ validationErrors sub))
    ∧ (validationErrors sub ≠ [] →
        (abbrevSubmit db sub genOk genQs now).1 = db
        ∧ (abbrevSubmit db sub genOk genQs now).2.1 = []) := by
  constructor
  · by_cases h1 : sub.age = none <;> by_cases h2 : sub.gender = "" <;>
      by_cases h3 : sub.race = "" <;> by_cases h4 : sub.state = "" <;>
      simp [validationErrors, h1, h2, h3, h4]
  · intro hne
    rcases herr : validationErrors sub with _ | ⟨e, rest⟩
    · exact absurd herr hne
    · unfold abbrevSubmit
      rw [herr]
      exact ⟨rfl, rfl⟩

/-- A submission with none of the four required demographic fields. -/
def subEmpty : Submission :=
  ⟨"Nav", none, "", "", "", "", none, "", "", "", [], []⟩

/-- C9 witness: with zero of the four required fields present, all four
messages are reported at once and the persistent state is unchanged. -/
theorem c9_witness :
    ("Age at SNF Stay is required" ∈ validationErrors subEmpty
      ∧ "Gender is required" ∈ validationErrors subEmpty
      ∧ "Race is required" ∈ validationErrors subEmpty
      ∧ "SNF State is required" ∈ validationErrors subEmpty)
    ∧ (abbrevSubmit dbWithDraft subEmpty true [] 0).1 = dbWithDraft := by
  have h := c9_validation dbWithDraft subEmpty true [] 0
  exact ⟨⟨h.1.1.mp rfl, h.1.2.1.mp rfl, h.1.2.2.1.mp rfl, h.1.2.2.2.mp rfl⟩,
    (h.2 (by decide)).1⟩

/-! ### C3: follow-on draft deletion -/

/-- The single ledger question of the C3 scenario, still unanswered. -/
def c3Question : FUQ :=
  ⟨"q1", "nav_1", "Nav", "A", 1, "Why?", none⟩

/-- The follow-on draft row of the C3 scenario. -/
def c3Draft : DraftRow :=
  ⟨"Nav", "follow_on_abbrev", sampleContent1⟩

/-- The follow-on page state of the C3 scenario: one unanswered question,
a follow-on draft present, and a non-empty session answer. -/
def c3State : FollowOnPage :=
  ⟨"nav_1", "abbrev", "Nav", [c3Question], [c3Draft], [("q1", "Because of the ramp")]⟩

/-- C3 counterexample: answering the last remaining unanswered question
through the per-question Save button gives every ledger question a
non-null answer, yet the follow-on draft row for (owner, follow_on_abbrev)
still exists afterward, so the draft does persist with every question
answered. -/
theorem c3_counterexample :
    (followOnSaveButton c3State "q1").questions
      = [⟨"q1", "nav_1", "Nav", "A", 1, "Why?", some "Because of the ramp"⟩]
    ∧ get_draft_case (followOnSaveButton c3State "q1").drafts "Nav" "follow_on_abbrev"
      = some c3Draft := by
  exact ⟨by decide, by decide⟩

/-- C3 (amended): the follow-on draft is deleted only by the Save All
Answers action, and exactly when that click saves at least one new answer
and the answered total reaches the question count; the per-question Save
and N/A buttons never touch the draft table, so answering the last
question through them leaves the draft in place. -/
theorem c3_draft_deletion_paths (st : FollowOnPage) (qid : String) :
    ((followOnSaveButton st qid).drafts = st.drafts)
    ∧ ((followOnNAButton st qid).drafts = st.drafts)
    ∧ ((st.questions.filter (savedByClick st)).length > 0
        ∧ (st.questions.filter (fun q => q.answer_text ≠ none)).length
            + (st.questions.filter (savedByClick st)).length ≥ st.questions.length →
        (followOnSaveAll st).drafts
          = delete_draft_case st.drafts st.user ("follow_on_" ++ st.intakeVersion))
    ∧ (¬ ((st.questions.filter (savedByClick st)).length > 0
        ∧ (st.questions.filter (fun q => q.answer_text ≠ none)).length
            + (st.questions.filter (savedByClick st)).length ≥ st.questions.length) →
        (followOnSaveAll st).drafts = st.drafts) := by
  refine ⟨?_, rfl, ?_, ?_⟩
  · unfold followOnSaveButton
    dsimp only
    split <;> rfl
  · intro hc
    unfold followOnSaveAll
    dsimp only
    rw [if_pos hc]
  · intro hc
    unfold followOnSaveAll
    dsimp only
    rw [if_neg hc]

/-- C3 witness: on the concrete scenario, Save All deletes the follow-on
draft (the slot becomes empty), while the per-question Save leaves the
draft table unchanged. -/
theorem c3_witness :
    (followOnSaveAll c3State).drafts
      = delete_draft_case c3State.drafts c3State.user ("follow_on_" ++ c3State.intakeVersion)
    ∧ (followOnSaveButton c3State "q1").drafts = c3State.drafts
    ∧ delete_draft_case c3State.drafts c3State.user ("follow_on_" ++ c3State.intakeVersion)
      = [] := by
  have h := c3_draft_deletion_paths c3State "q1"
  exact ⟨h.2.2.1 (by decide), h.1, by decide⟩

/-! ### Helper lemmas about the parser loop -/

theorem stepStripped_section (s : PState) (line sec : String)
    (h2 : line ≠ "") (h3 : sectionOf line = some sec) :
    stepStripped s line = { s with currentSection := some sec } := by
  unfold stepStripped
  rw [if_neg h2, h3]

theorem stepStripped_question (s : PState) (line : String) (n : Nat) (t sec : String)
    (h2 : line ≠ "") (h3 : sectionOf line = none) (h4 : questionMatch line = some (n, t))
    (h5 : s.currentSection = some sec) :
    stepStripped s line = { s with questions := s.questions ++ [⟨sec, n, t⟩] } := by
  unfold stepStripped
  rw [if_neg h2, h3, h4, h5]

theorem stepStripped_cont (s : PState) (line : String)
    (h2 : line ≠ "") (h3 : sectionOf line = none) (h4 : questionMatch line = none)
    (hq : s.questions ≠ []) (hs : s.currentSection ≠ none)
    (hc1 : contSectionMarker line = false) (hc2 : contNumMarker line = false) :
    stepStripped s line = { s with questions := appendToLast s.questions (" " ++ line) } := by
  unfold stepStripped
  rw [if_neg h2, h3, h4, if_pos ⟨hq, hs, hc1, hc2⟩]

theorem step_no_section (s : PState) (l : String)
    (hsec : s.currentSection = none) (h : sectionOf (pyStrip l) = none) :
    step s l = s := by
  unfold step stepStripped
  by_cases hb : pyStrip l = ""
  · rw [if_pos hb]
  · rw [if_neg hb, h]
    rcases hq : questionMatch (pyStrip l) with _ | ⟨n, t⟩
    · rw [if_neg]
      intro hcond
      exact hcond.2.1 hsec
    · rw [hsec]

theorem parse_no_header (lines : List String)
    (h : ∀ l ∈ lines, sectionOf (pyStrip l) = none) :
    parseLinesState lines = ⟨[], none⟩ := by
  unfold parseLinesState
  induction lines with
  | nil => rfl
  | cons l ls ih =>
    rw [List.foldl_cons, step_no_section ⟨[], none⟩ l rfl (h l (by simp))]
    exact ih (fun l2 hl2 => h l2 (by simp [hl2]))

theorem appendToLast_concat (qs : List PQuestion) (q : PQuestion) (t : String) :
    appendToLast (qs ++ [q]) t = qs ++ [{ q with question_text := q.question_text ++ t }] := by
  induction qs with
  | nil => rfl
  | cons a as ih =>
    cases as with
    | nil => rfl
    | cons b bs =>
      show a :: appendToLast ((b :: bs) ++ [q]) t = _
      rw [ih]
      rfl

/-! ### C8: continuation lines are space-joined into the previous question -/

/-- C8: in any reply where a section is active at the split point, a
numbered question split across two physical lines parses identically to
the same question written on one line. The first physical line is any
numbered question line, the second any continuation line (matching
neither a section header nor the section-letter or number guards), and
the unsplit line is the same numbered question whose text is the two
fragments joined by a single space: the whole parse result, hence the
question count, is unchanged by the split, with arbitrary reply lines
before and after. -/
theorem c8_continuation_join (pre rest : List String) (sec : String) (n : Nat)
    (t1 : String) (line1 line2 line12 : String)
    (h : (parseLinesState pre).currentSection = some sec)
    (h1a : pyStrip line1 = line1) (h1c : sectionOf line1 = none)
    (h1d : questionMatch line1 = some (n, t1))
    (h2a : pyStrip line2 = line2) (h2b : line2 ≠ "") (h2c : sectionOf line2 = none)
    (h2d : questionMatch line2 = none) (h2e : contSectionMarker line2 = false)
    (h2f : contNumMarker line2 = false)
    (h3a : pyStrip line12 = line12) (h3c : sectionOf line12 = none)
    (h3d : questionMatch line12 = some (n, t1 ++ (" " ++ line2))) :
    parseLinesState (pre ++ line1 :: line2 :: rest)
      = parseLinesState (pre ++ line12 :: rest) := by
  have h1b : line1 ≠ "" := by
    intro hcontra
    rw [hcontra] at h1d
    exact Option.noConfusion (h1d : (none : Option (Nat × String)) = some (n, t1))
  have h3b : line12 ≠ "" := by
    intro hcontra
    rw [hcontra] at h3d
    exact Option.noConfusion
      (h3d : (none : Option (Nat × String)) = some (n, t1 ++ (" " ++ line2)))
  unfold parseLinesState at h ⊢
  rw [List.foldl_append, List.foldl_append]
  simp only [List.foldl_cons]
  have e1 : step (List.foldl step ⟨[], none⟩ pre) line1
      = { List.foldl step ⟨[], none⟩ pre with
          questions := (List.foldl step ⟨[], none⟩ pre).questions ++ [⟨sec, n, t1⟩] } := by
    show stepStripped _ (pyStrip line1) = _
    rw [h1a]
    exact stepStripped_question _ _ n t1 sec h1b h1c h1d h
  rw [e1]
  have e2 : step { List.foldl step ⟨[], none⟩ pre with
        questions := (List.foldl step ⟨[], none⟩ pre).questions ++ [⟨sec, n, t1⟩] } line2
      = { List.foldl step ⟨[], none⟩ pre with
          questions := appendToLast
            ((List.foldl step ⟨[], none⟩ pre).questions ++ [⟨sec, n, t1⟩])
            (" " ++ line2) } := by
    show stepStripped _ (pyStrip line2) = _
    rw [h2a]
    exact stepStripped_cont _ _ h2b h2c h2d (by simp) (by simp [h]) h2e h2f
  rw [e2, appendToLast_concat]
  have e3 : step (List.foldl step ⟨[], none⟩ pre) line12
      = { List.foldl step ⟨[], none⟩ pre with
          questions := (List.foldl step ⟨[], none⟩ pre).questions
            ++ [⟨sec, n, t1 ++ (" " ++ line2)⟩] } := by
    show stepStripped _ (pyStrip line12) = _
    rw [h3a]
    exact stepStripped_question _ _ n (t1 ++ (" " ++ line2)) sec h3b h3c h3d h
  rw [e3]

/-- C8 witness: with the section-A header in front, splitting the question
2. What triggered the delay? after the word triggered parses to exactly
the same result as the unsplit line; the single parsed question carries
the space-joined text, and the full string parser agrees on the raw reply
with the embedded newline. -/
theorem c8_witness :
    parseLinesState (["A) Reasoning Trace"] ++ "2. What triggered" :: "the delay?" :: [])
      = parseLinesState (["A) Reasoning Trace"] ++ "2. What triggered the delay?" :: [])
    ∧ (parseLinesState (["A) Reasoning Trace"] ++ "2. What triggered" :: "the delay?" :: [])).questions
      = [⟨"A", 2, "What triggered the delay?"⟩]
    ∧ parse_follow_up_response "A) Reasoning Trace\n2. What triggered\nthe delay?"
      = [⟨"A", 2, "What triggered the delay?"⟩] :=
  ⟨c8_continuation_join ["A) Reasoning Trace"] [] "A" 2 "What triggered"
      "2. What triggered" "the delay?" "2. What triggered the delay?" (by decide)
      (by decide) (by decide) (by decide) (by decide) (by decide) (by decide)
      (by decide) (by decide) (by decide) (by decide) (by decide) (by decide),
    by decide, by decide⟩

/-! ### C10: implicit continuation and pre-header behavior of the parser -/

/-- C10: the implicit parser behavior. First, a reply in which no line
matches a section header leaves the parser state empty, and any prefix of
lines containing no section header contributes nothing to the parse, so
numbered lines appearing before the first recognized section header
produce no question at all. Second, a line that strips to blank leaves
the state unchanged. Third, a section-header line only switches the
current section and never touches the accumulated questions. Fourth, any
non-blank line that matches neither a section header, nor a numbered
question, nor the section-letter or number guard patterns is
space-appended to the most recently parsed question whenever at least one
question exists and a section is active — regardless of what stood
between that question and the line, so prose directly under a later
section header is appended to the last question of the previous
section. -/
theorem c10_parser_implicit_behavior :
    (∀ lines : List String, (∀ l ∈ lines, sectionOf (pyStrip l) = none) →
      parseLinesState lines = ⟨[], none⟩)
    ∧ (∀ pre rest : List String, (∀ l ∈ pre, sectionOf (pyStrip l) = none) →
        parseLinesState (pre ++ rest) = parseLinesState rest)
    ∧ (∀ (s : PState) (l : String), pyStrip l = "" → step s l = s)
    ∧ (∀ (s : PState) (l sec : String), pyStrip l ≠ "" → sectionOf (pyStrip l) = some sec →
        step s l = { s with currentSection := some sec })
    ∧ (∀ (s : PState) (l : String), pyStrip l = l → l ≠ "" → sectionOf l = none →
        questionMatch l = none → contSectionMarker l = false → contNumMarker l = false →
        s.questions ≠ [] → s.currentSection ≠ none →
        step s l = { s with questions := appendToLast s.questions (" " ++ l) }) := by
  refine ⟨parse_no_header, ?_, ?_, ?_, ?_⟩
  · intro pre rest hpre
    unfold parseLinesState
    rw [List.foldl_append]
    have hinit : List.foldl step ⟨[], none⟩ pre = ⟨[], none⟩ := parse_no_header pre hpre
    rw [hinit]
  · intro s l hb
    show stepStripped s (pyStrip l) = s
    rw [hb]
    rfl
  · intro s l sec hb hsec
    show stepStripped s (pyStrip l) = _
    exact stepStripped_section s (pyStrip l) sec hb hsec
  · intro s l hstrip hne hsec hqm hc1 hc2 hq hcs
    show stepStripped s (pyStrip l) = _
    rw [hstrip]
    exact stepStripped_cont s l hne hsec hqm hq hcs hc1 hc2

/-- C10 witness: numbered lines with no section header parse to nothing;
prose sitting directly under the section-B header is appended to the last
question of section A; a header line keeps the questions; a blank line
changes nothing. -/
theorem c10_witness :
    parseLinesState ["1. Early question", "2. Later question"] = ⟨[], none⟩
    ∧ parseLinesState (["1. Early question"] ++ ["A) Reasoning Trace", "1. Why?"])
      = parseLinesState ["A) Reasoning Trace", "1. Why?"]
    ∧ step ⟨[⟨"A", 1, "Why?"⟩], some "B"⟩ "Some prose here"
      = ⟨[⟨"A", 1, "Why? Some prose here"⟩], some "B"⟩
    ∧ step ⟨[⟨"A", 1, "Why?"⟩], some "A"⟩ "B) Discharge Timing Dynamics"
      = ⟨[⟨"A", 1, "Why?"⟩], some "B"⟩
    ∧ step ⟨[⟨"A", 1, "Why?"⟩], some "A"⟩ "" = ⟨[⟨"A", 1, "Why?"⟩], some "A"⟩ := by
  refine ⟨c10_parser_implicit_behavior.1 _ (by decide),
    c10_parser_implicit_behavior.2.1 _ _ (by decide), ?_, ?_, ?_⟩
  · exact (c10_parser_implicit_behavior.2.2.2.2 ⟨[⟨"A", 1, "Why?"⟩], some "B"⟩
      "Some prose here" (by decide) (by decide) (by decide) (by decide) (by decide)
      (by decide) (by decide) (by decide)).trans (by decide)
  · exact (c10_parser_implicit_behavior.2.2.2.1 ⟨[⟨"A", 1, "Why?"⟩], some "A"⟩
      "B) Discharge Timing Dynamics" "B" (by decide) (by decide)).trans (by decide)
  · exact c10_parser_implicit_behavior.2.2.1 ⟨[⟨"A", 1, "Why?"⟩], some "A"⟩ "" (by decide)

end SnfApp
